import Mathlib

/-!
Verification of the elf-simulations pricing core against its specification.

The fixed-point arithmetic kernel (`elfpy/utils/math/fixed_point_math.py`) is
embedded over `Int`: Python's arbitrary-precision integers are `Int`, Python's
floor division `//` and right shifts are `Int.fdiv` (by a power of two), left
shifts are multiplication by a power of two, and a `raise` is an explicit
error value carrying the Python exception type and message.  Negative shift
counts and division by zero, which Python signals with `ValueError` and
`ZeroDivisionError`, are modelled as explicit error branches.

The Hyperdrive trade engine (`elfpy/pricing_models/hyperdrive.py`) operates on
Python floats; it is embedded over `ℚ`, reading its arithmetic as exact real
arithmetic.  The YieldSpace curve solver that `hyperdrive.py` invokes through
`super()` is not part of the sources; it is modelled from the specification
(section 4.2/4.3), with its transcendental parts (the constant-power invariant
solution and the spot price) abstracted as an oracle parameter.
-/

set_option maxRecDepth 100000

/-- Python exception classes that the kernel can raise. -/
inductive ExcType where
  | overflowError
  | valueError
  | zeroDivisionError
deriving DecidableEq

/-- A raised Python exception: its class together with its message. -/
structure PyErr where
  excType : ExcType
  msg : String
deriving DecidableEq

/-- Result of a kernel call: a value, or a raised exception. -/
inductive FPResult where
  | ok (value : Int)
  | err (e : PyErr)
deriving DecidableEq

/-- The Python exception class of a result, if it is an error. -/
def FPResult.errKind : FPResult → Option ExcType
  | .ok _ => none
  | .err e => some e.excType

namespace FixedPointMath

/-- `ONE_18 = 10**18`. -/
def ONE_18 : Int := 10 ^ 18

/-- `INT_MAX = sys.maxsize`, which is `2**63 - 1` in CPython on a 64-bit
platform (the setting the repository runs on). -/
def INT_MAX : Int := 2 ^ 63 - 1

/-- `EXP_MIN = floor(log(0.5e-18)*1e18)`. -/
def EXP_MIN : Int := -42139678854452767622

/-- `EXP_MAX = floor(log((2**255 - 1) / 1e18) * 1e18)`. -/
def EXP_MAX : Int := 135305999368893231589

/-- `FixedPointMath.add`: returns `a + b`, raising
`OverflowError("FixedPointMath_AddOverflow")` when `c < a` or
`a > INT_MAX - b`. -/
def add (a b : Int) : FPResult :=
  let c := a + b
  if c < a ∨ a > INT_MAX - b then .err ⟨.overflowError, "FixedPointMath_AddOverflow"⟩
  else .ok c

/-- `FixedPointMath.sub`: returns `a - b`, raising
`OverflowError("FixedPointMath_SubOverflow")` when `b > a`. -/
def sub (a b : Int) : FPResult :=
  if b > a then .err ⟨.overflowError, "FixedPointMath_SubOverflow"⟩
  else .ok (a - b)

/-- `FixedPointMath.mul_div_down`: `z = x*y`; requires `d != 0` and
(`x == 0` or `z // x == y`); returns `0` when `z // d == 0`, else
`(z + d - 1) // d`. -/
def mul_div_down (x y d : Int) : FPResult :=
  let z := x * y
  if ¬(d ≠ 0 ∧ (x = 0 ∨ z.fdiv x = y)) then
    .err ⟨.valueError, "FixedPointMath_mulDivDown_InvalidInput"⟩
  else if z.fdiv d = 0 then .ok 0
  else .ok ((z + d - 1).fdiv d)

/-- `FixedPointMath.mul_div_up`: `z = x*y`; requires `d != 0` and
(`x == 0` or `z // x == y`); returns `0` when `z == 0`, else
`((z - 1) // d) + 1`. -/
def mul_div_up (x y d : Int) : FPResult :=
  let z := x * y
  if ¬(d ≠ 0 ∧ (x = 0 ∨ z.fdiv x = y)) then
    .err ⟨.valueError, "FixedPointMath_mulDivUp_InvalidInput"⟩
  else if z = 0 then .ok 0
  else .ok ((z - 1).fdiv d + 1)

/-- `FixedPointMath._ilog2`: `floor(log2(x))` via `int.bit_length`, with
`_ilog2(0) = 0`.  For `x > 0`, `x.bit_length() - 1 = Nat.log2 x`. -/
def ilog2 (x : Int) : Int :=
  if x = 0 then 0 else (Nat.log2 x.natAbs : Int)

/-- Python `v >> 96` (arithmetic shift, i.e. floor division by `2**96`). -/
def shr96 (v : Int) : Int := v.fdiv (2 ^ 96)

/-- `_ln` line `k = _ilog2(x) - 96`. -/
def lnK (x : Int) : Int := ilog2 x - 96

/-- `_ln` lines `x <<= 159 - k; x >>= 159`: the range-reduced argument. -/
def lnX1 (x : Int) : Int := (x * 2 ^ (159 - lnK x).toNat).fdiv (2 ^ 159)

/-- `_ln` numerator chain `p` evaluated at the reduced argument. -/
def lnP (v : Int) : Int :=
  let p := v + 3273285459638523848632254066296
  let p := shr96 (p * v) + 24828157081833163892658089445524
  let p := shr96 (p * v) + 43456485725739037958740375743393
  let p := shr96 (p * v) - 11111509109440967052023855526967
  let p := shr96 (p * v) - 45023709667254063763336534515857
  let p := shr96 (p * v) - 14706773417378608786704636184526
  p * v - 795164235651350426258249787498 * 2 ^ 96

/-- `_ln` denominator chain `q` evaluated at the reduced argument. -/
def lnQ (v : Int) : Int :=
  let q := v + 5573035233440673466300451813936
  let q := shr96 (q * v) + 71694874799317883764090561454958
  let q := shr96 (q * v) + 283447036172924575727196451306956
  let q := shr96 (q * v) + 401686690394027663651624208769553
  let q := shr96 (q * v) + 204048457590392012362485061816622
  let q := shr96 (q * v) + 31853899698501571402653359427138
  shr96 (q * v) + 909429971244387300277376558375

/-- `FixedPointMath._ln`: the unchecked natural-logarithm kernel.  Raises
`ValueError("FixedPointMath_NegativeInput")` on negative input; the shift
`x <<= 159 - k` raises Python's negative-shift `ValueError` when
`159 - k < 0`, and `divmod(p, q)` raises `ZeroDivisionError` when `q = 0`. -/
def ln_inner (x : Int) : FPResult :=
  if x < 0 then .err ⟨.valueError, "FixedPointMath_NegativeInput"⟩
  else if 159 - lnK x < 0 then .err ⟨.valueError, "negative shift count"⟩
  else if lnQ (lnX1 x) = 0 then
    .err ⟨.zeroDivisionError, "integer division or modulo by zero"⟩
  else
    .ok (((lnP (lnX1 x)).fdiv (lnQ (lnX1 x)) * 1677202110996718588342820967067443963516166
      + 16597577552685614221487285958193947469193820559219878177908093499208371 * lnK x
      + 600920179829731861736702779321621459595472258049074101567377883020018308).fdiv
        (2 ^ 174))

/-- `FixedPointMath.ln`: raises
`ValueError("FixedPointMath_NegativeOrZeroInput")` when `x <= 0`, else
delegates to `_ln`. -/
def ln (x : Int) : FPResult :=
  if x ≤ 0 then .err ⟨.valueError, "FixedPointMath_NegativeOrZeroInput"⟩
  else ln_inner x

/-- `ln(2) * 2**96`, the range-reduction constant of `exp`. -/
def EXP_LN2 : Int := 54916777467707473351141471128

/-- `exp` line `x = (x << 78) // (5**18)`: conversion to the `2**96` basis. -/
def expX1 (x : Int) : Int := (x * 2 ^ 78).fdiv (5 ^ 18)

/-- `exp` line `k = (((x << 96) // 54916777467707473351141471128) + (2**95)) >> 96`. -/
def expK (x : Int) : Int :=
  shr96 ((expX1 x * 2 ^ 96).fdiv EXP_LN2 + 2 ^ 95)

/-- `exp` line `x = x - k * 54916777467707473351141471128`: the reduced
argument of the rational approximation. -/
def expX2 (x : Int) : Int := expX1 x - expK x * EXP_LN2

/-- `exp` numerator chain, step 1: `p = x + 2772001395605857295435445496992`. -/
def expP1 (t : Int) : Int := t + 2772001395605857295435445496992

/-- `exp` numerator chain, step 2. -/
def expP2 (t : Int) : Int := shr96 (expP1 t * t) + 44335888930127919016834873520032

/-- `exp` numerator chain, step 3. -/
def expP3 (t : Int) : Int := shr96 (expP2 t * t) + 398888492587501845352592340339721

/-- `exp` numerator chain, step 4. -/
def expP4 (t : Int) : Int := shr96 (expP3 t * t) + 1993839819670624470859228494792842

/-- `exp` numerator: `p = p * x + (4385272521454847904659076985693276 << 96)`. -/
def expP (t : Int) : Int := expP4 t * t + 4385272521454847904659076985693276 * 2 ^ 96

/-- `exp` denominator chain: `z = x + 750530180792738023273180420736`. -/
def expZ1 (t : Int) : Int := t + 750530180792738023273180420736

/-- `exp` denominator chain: `z = ((z * x) >> 96) + 32788456221302202726307501949080`. -/
def expZ2 (t : Int) : Int := shr96 (expZ1 t * t) + 32788456221302202726307501949080

/-- `exp` denominator chain: `w = x - 2218138959503481824038194425854`. -/
def expW1 (t : Int) : Int := t - 2218138959503481824038194425854

/-- `exp` denominator chain: `w = ((w * z) >> 96) + 892943633302991980437332862907700`. -/
def expW2 (t : Int) : Int := shr96 (expW1 t * expZ2 t) + 892943633302991980437332862907700

/-- `exp` denominator chain: `q = z + w - 78174809823045304726920794422040`. -/
def expQ1 (t : Int) : Int := expZ2 t + expW2 t - 78174809823045304726920794422040

/-- `exp` denominator: `q = ((q * w) >> 96) + 4203224763890128580604056984195872`. -/
def expQ (t : Int) : Int := shr96 (expQ1 t * expW2 t) + 4203224763890128580604056984195872

/-- `FixedPointMath.exp`: returns `0` at or below `EXP_MIN`, raises
`ValueError("FixedPointMath_InvalidExponent")` at or above `EXP_MAX`, and
otherwise range-reduces and evaluates the (6,7) rational approximation.
`divmod(p, q)` raises `ZeroDivisionError` when `q = 0`, and the final
`>> (195 - k)` raises Python's negative-shift `ValueError` when
`195 - k < 0`. -/
def exp (x : Int) : FPResult :=
  if x ≤ EXP_MIN then .ok 0
  else if EXP_MAX ≤ x then .err ⟨.valueError, "FixedPointMath_InvalidExponent"⟩
  else if expQ (expX2 x) = 0 then
    .err ⟨.zeroDivisionError, "integer division or modulo by zero"⟩
  else if 195 - expK x < 0 then .err ⟨.valueError, "negative shift count"⟩
  else
    .ok (((expP (expX2 x)).fdiv (expQ (expX2 x)) *
      3822833074963236453042738258902158003155416615667).fdiv
        (2 ^ (195 - expK x).toNat))

end FixedPointMath

/-- `elfpy.types.TokenType`: the unit tag of a traded quantity. -/
inductive TokenType where
  | base
  | pt
deriving DecidableEq

/-- `elfpy.types.Quantity`: an amount together with its unit. -/
structure Quantity where
  amount : ℚ
  unit : TokenType
deriving DecidableEq

/-- The AMM reserve state consumed by the pricing models (the spec's
`ReserveState`): reserves, prices, and the fee percentages. -/
structure MarketState where
  share_reserves : ℚ
  bond_reserves : ℚ
  share_price : ℚ
  init_share_price : ℚ
  curve_fee_percent : ℚ
  redemption_fee_percent : ℚ
  governance_fee_percent : ℚ
deriving DecidableEq

/-- `elfpy.time.StretchedTime`: days remaining, the time-stretch parameter,
and the full-term length in days. -/
structure StretchedTime where
  days : ℚ
  time_stretch : ℚ
  normalizing_constant : ℚ
deriving DecidableEq

/-- `StretchedTime.normalized_time`: days remaining as a fraction of the
full term. -/
def StretchedTime.normalized_time (t : StretchedTime) : ℚ :=
  t.days / t.normalizing_constant

/-- `elfpy.agents.agent.AgentTradeResult`: wallet deltas of the trader. -/
structure AgentTradeResult where
  d_base : ℚ
  d_bonds : ℚ
deriving DecidableEq

/-- `elfpy.markets.hyperdrive.MarketActionResult`: reserve deltas of the pool. -/
structure MarketActionResult where
  d_base : ℚ
  d_bonds : ℚ
deriving DecidableEq

/-- `elfpy.pricing_models.trades.TradeBreakdown`: the four reported amounts. -/
structure TradeBreakdown where
  without_fee_or_slippage : ℚ
  without_fee : ℚ
  fee : ℚ
  with_fee : ℚ
deriving DecidableEq

/-- `elfpy.pricing_models.trades.TradeResult`. -/
structure TradeResult where
  user_result : AgentTradeResult
  market_result : MarketActionResult
  breakdown : TradeBreakdown
deriving DecidableEq

/-- Modelled from the spec: the transcendental parts of the YieldSpace curve
solver of section 4.2, whose source is not among the given files.  The oracle
supplies the pre-fee curve-only exchange amount for each direction (the
solution of the constant-power invariant, which uses `pow`) and the spot
price; the fee schedule and result assembly are given concretely below. -/
structure CurveOracle where
  outGivenIn : Quantity → MarketState → StretchedTime → ℚ
  inGivenOut : Quantity → MarketState → StretchedTime → ℚ
  spotPrice : MarketState → StretchedTime → ℚ

namespace YieldspacePricingModel

/-- Modelled from the spec: `YieldspacePricingModel.calc_out_given_in`
(section 4.2/4.3), absent from the given sources.  The pre-fee output is the
oracle's invariant solution; the curve fee is `(1/p - 1) * curve_fee_percent *
amount` when specifying base and `(1 - p) * curve_fee_percent * amount` when
specifying bonds; the fee reduces the output (`with_fee = without_fee - fee`);
user and market wallet deltas are sign-opposite. -/
def calc_out_given_in (o : CurveOracle) (in_ : Quantity) (ms : MarketState)
    (t : StretchedTime) : TradeResult :=
  let without_fee := o.outGivenIn in_ ms t
  let p := o.spotPrice ms t
  match in_.unit with
  | .base =>
    let fee := (1 / p - 1) * ms.curve_fee_percent * in_.amount
    let with_fee := without_fee - fee
    ⟨⟨-in_.amount, with_fee⟩, ⟨in_.amount, -with_fee⟩,
      ⟨in_.amount / p, without_fee, fee, with_fee⟩⟩
  | .pt =>
    let fee := (1 - p) * ms.curve_fee_percent * in_.amount
    let with_fee := without_fee - fee
    ⟨⟨with_fee, -in_.amount⟩, ⟨-with_fee, in_.amount⟩,
      ⟨p * in_.amount, without_fee, fee, with_fee⟩⟩

/-- Modelled from the spec: `YieldspacePricingModel.calc_in_given_out`
(section 4.2/4.3), absent from the given sources.  The required input grows by
the fee (`with_fee = without_fee + fee`); user and market wallet deltas are
sign-opposite. -/
def calc_in_given_out (o : CurveOracle) (out : Quantity) (ms : MarketState)
    (t : StretchedTime) : TradeResult :=
  let without_fee := o.inGivenOut out ms t
  let p := o.spotPrice ms t
  match out.unit with
  | .base =>
    let fee := (1 / p - 1) * ms.curve_fee_percent * out.amount
    let with_fee := without_fee + fee
    ⟨⟨out.amount, -with_fee⟩, ⟨-out.amount, with_fee⟩,
      ⟨out.amount / p, without_fee, fee, with_fee⟩⟩
  | .pt =>
    let fee := (1 - p) * ms.curve_fee_percent * out.amount
    let with_fee := without_fee + fee
    ⟨⟨-with_fee, out.amount⟩, ⟨with_fee, -out.amount⟩,
      ⟨p * out.amount, without_fee, fee, with_fee⟩⟩

end YieldspacePricingModel

namespace HyperdrivePricingModel

/-- The `StretchedTime` handed to the curve solver: time remaining pinned to
the full term (`days = normalizing_constant`), the time stretch and the
normalizing constant passed through (`hyperdrive.py`, both call sites). -/
def curve_time (t : StretchedTime) : StretchedTime :=
  ⟨t.normalizing_constant, t.time_stretch, t.normalizing_constant⟩

/-- The `Quantity` handed to the curve solver: `amount * normalized_time`
in the caller's unit (`hyperdrive.py`, both call sites). -/
def curve_quantity (q : Quantity) (t : StretchedTime) : Quantity :=
  ⟨q.amount * t.normalized_time, q.unit⟩

/-- The local working copy of the reserves inside `calc_out_given_in` after
the matured share is redeemed 1:1 (`market_state.copy()` followed by the
reserve adjustment). -/
def adjusted_state_out (in_ : Quantity) (ms : MarketState) (t : StretchedTime) :
    MarketState :=
  let d_bonds := in_.amount * (1 - t.normalized_time)
  let d_shares := d_bonds / ms.share_price
  match in_.unit with
  | .base =>
    ⟨ms.share_reserves + d_shares, ms.bond_reserves - d_bonds, ms.share_price,
      ms.init_share_price, ms.curve_fee_percent, ms.redemption_fee_percent,
      ms.governance_fee_percent⟩
  | .pt =>
    ⟨ms.share_reserves - d_shares, ms.bond_reserves + d_bonds, ms.share_price,
      ms.init_share_price, ms.curve_fee_percent, ms.redemption_fee_percent,
      ms.governance_fee_percent⟩

/-- The local working copy of the reserves inside `calc_in_given_out` after
the matured share is redeemed 1:1. -/
def adjusted_state_in (out : Quantity) (ms : MarketState) (t : StretchedTime) :
    MarketState :=
  let d_bonds := out.amount * (1 - t.normalized_time)
  let d_shares := d_bonds / ms.share_price
  match out.unit with
  | .base =>
    ⟨ms.share_reserves - d_shares, ms.bond_reserves + d_bonds, ms.share_price,
      ms.init_share_price, ms.curve_fee_percent, ms.redemption_fee_percent,
      ms.governance_fee_percent⟩
  | .pt =>
    ⟨ms.share_reserves + d_shares, ms.bond_reserves - d_bonds, ms.share_price,
      ms.init_share_price, ms.curve_fee_percent, ms.redemption_fee_percent,
      ms.governance_fee_percent⟩

/-- The curve-leg result inside `HyperdrivePricingModel.calc_out_given_in`:
the YieldSpace solver applied to the curve share of the trade against the
adjusted working copy, with time pinned to the full term. -/
def curve_result_out (o : CurveOracle) (in_ : Quantity) (ms : MarketState)
    (t : StretchedTime) : TradeResult :=
  YieldspacePricingModel.calc_out_given_in o (curve_quantity in_ t)
    (adjusted_state_out in_ ms t) (curve_time t)

/-- The curve-leg result inside `HyperdrivePricingModel.calc_in_given_out`. -/
def curve_result_in (o : CurveOracle) (out : Quantity) (ms : MarketState)
    (t : StretchedTime) : TradeResult :=
  YieldspacePricingModel.calc_in_given_out o (curve_quantity out t)
    (adjusted_state_in out ms t) (curve_time t)

/-- `HyperdrivePricingModel.calc_out_given_in` (`hyperdrive.py` lines
185-325).  The second component of the pair is the `market_state` instance as
the caller sees it after the call: the source copies the state before the
matured-leg adjustment, so the caller's instance is returned unchanged. -/
def calc_out_given_in (o : CurveOracle) (in_ : Quantity) (ms : MarketState)
    (t : StretchedTime) : TradeResult × MarketState :=
  let curve := curve_result_out o in_ ms t
  let flat_without_fee := in_.amount * (1 - t.normalized_time)
  let redemption_fee := flat_without_fee * ms.redemption_fee_percent
  let flat_with_fee := flat_without_fee - redemption_fee
  let breakdown : TradeBreakdown :=
    ⟨flat_without_fee + curve.breakdown.without_fee_or_slippage,
      flat_without_fee + curve.breakdown.without_fee,
      curve.breakdown.fee + redemption_fee,
      flat_with_fee + curve.breakdown.with_fee⟩
  match in_.unit with
  | .base =>
    (⟨⟨-in_.amount, flat_with_fee + curve.user_result.d_bonds⟩,
      ⟨in_.amount, curve.market_result.d_bonds⟩, breakdown⟩, ms)
  | .pt =>
    (⟨⟨flat_with_fee + curve.user_result.d_base, -in_.amount⟩,
      ⟨-flat_with_fee + curve.market_result.d_base, curve.market_result.d_bonds⟩,
      breakdown⟩, ms)

/-- `HyperdrivePricingModel.calc_in_given_out` (`hyperdrive.py` lines
32-180).  The second component of the pair is the `market_state` instance as
the caller sees it after the call. -/
def calc_in_given_out (o : CurveOracle) (out : Quantity) (ms : MarketState)
    (t : StretchedTime) : TradeResult × MarketState :=
  let curve := curve_result_in o out ms t
  let flat_without_fee := out.amount * (1 - t.normalized_time)
  let redemption_fee := flat_without_fee * ms.redemption_fee_percent
  let flat_with_fee := flat_without_fee + redemption_fee
  let breakdown : TradeBreakdown :=
    ⟨flat_without_fee + curve.breakdown.without_fee_or_slippage,
      flat_without_fee + curve.breakdown.without_fee,
      redemption_fee + curve.breakdown.fee,
      flat_with_fee + curve.breakdown.with_fee⟩
  match out.unit with
  | .base =>
    (⟨⟨out.amount, -flat_with_fee + curve.user_result.d_bonds⟩,
      ⟨-out.amount, curve.market_result.d_bonds⟩, breakdown⟩, ms)
  | .pt =>
    (⟨⟨-flat_with_fee + curve.user_result.d_base, out.amount⟩,
      ⟨flat_with_fee + curve.market_result.d_base, curve.market_result.d_bonds⟩,
      breakdown⟩, ms)

end HyperdrivePricingModel

/-- A concrete curve oracle used to evaluate the engine at specific inputs:
the invariant solution is taken to be the requested amount and the spot price
is one. -/
def constOracle : CurveOracle :=
  ⟨fun q _ _ => q.amount, fun q _ _ => q.amount, fun _ _ => 1⟩

/-! ### Helper lemmas about floor division -/

theorem fdiv_le_fdiv_right {a b d : ℤ} (hd : 0 < d) (h : a ≤ b) :
    a.fdiv d ≤ b.fdiv d := by
  rw [Int.fdiv_eq_ediv _ hd.le, Int.fdiv_eq_ediv _ hd.le]
  exact Int.ediv_le_ediv hd h

theorem fdiv_mul_le {a d : ℤ} (hd : 0 < d) : d * a.fdiv d ≤ a := by
  rw [Int.fdiv_eq_ediv _ hd.le]
  have h1 := Int.ediv_add_emod a d
  have h2 := Int.emod_nonneg a (ne_of_gt hd)
  linarith

theorem lt_fdiv_mul_add {a d : ℤ} (hd : 0 < d) : a < d * a.fdiv d + d := by
  rw [Int.fdiv_eq_ediv _ hd.le]
  have h1 := Int.ediv_add_emod a d
  have h2 := Int.emod_lt_of_pos a hd
  linarith

theorem le_fdiv_of_mul_le {a d lo : ℤ} (hd : 0 < d) (h : lo * d ≤ a) :
    lo ≤ a.fdiv d := by
  by_contra hc
  push_neg at hc
  have h1 : a.fdiv d + 1 ≤ lo := by omega
  have h2 := lt_fdiv_mul_add (a := a) hd
  have h3 : d * (a.fdiv d + 1) ≤ d * lo := by
    exact mul_le_mul_of_nonneg_left h1 hd.le
  nlinarith

theorem fdiv_le_of_lt_mul {a d hi : ℤ} (hd : 0 < d) (h : a < (hi + 1) * d) :
    a.fdiv d ≤ hi := by
  by_contra hc
  push_neg at hc
  have h1 : hi + 1 ≤ a.fdiv d := by omega
  have h2 := fdiv_mul_le (a := a) hd
  have h3 : d * (hi + 1) ≤ d * a.fdiv d := mul_le_mul_of_nonneg_left h1 hd.le
  nlinarith

theorem mul_le_max2 {v u a b : ℤ} (h1 : a ≤ v) (h2 : v ≤ b) :
    v * u ≤ max (a * u) (b * u) := by
  rcases le_total 0 u with hu | hu
  · exact le_max_of_le_right (mul_le_mul_of_nonneg_right h2 hu)
  · exact le_max_of_le_left (mul_le_mul_of_nonpos_right h1 hu)

theorem min2_le_mul {v u a b : ℤ} (h1 : a ≤ v) (h2 : v ≤ b) :
    min (a * u) (b * u) ≤ v * u := by
  rcases le_total 0 u with hu | hu
  · exact min_le_of_left_le (mul_le_mul_of_nonneg_right h1 hu)
  · exact min_le_of_right_le (mul_le_mul_of_nonpos_right h2 hu)

theorem mul_le_max_const {u c d a : ℤ} (h3 : c ≤ u) (h4 : u ≤ d) :
    a * u ≤ max (a * c) (a * d) := by
  rcases le_total 0 a with ha | ha
  · exact le_max_of_le_right (mul_le_mul_of_nonneg_left h4 ha)
  · exact le_max_of_le_left (mul_le_mul_of_nonpos_left h3 ha)

theorem min_const_le_mul {u c d a : ℤ} (h3 : c ≤ u) (h4 : u ≤ d) :
    min (a * c) (a * d) ≤ a * u := by
  rcases le_total 0 a with ha | ha
  · exact min_le_of_left_le (mul_le_mul_of_nonneg_left h3 ha)
  · exact min_le_of_right_le (mul_le_mul_of_nonpos_left h4 ha)

theorem mul_interval {v u a b c d : ℤ} (h1 : a ≤ v) (h2 : v ≤ b)
    (h3 : c ≤ u) (h4 : u ≤ d) :
    min (min (a * c) (a * d)) (min (b * c) (b * d)) ≤ v * u ∧
    v * u ≤ max (max (a * c) (a * d)) (max (b * c) (b * d)) := by
  constructor
  · exact le_trans (min_le_min (min_const_le_mul h3 h4) (min_const_le_mul h3 h4))
      (min2_le_mul h1 h2)
  · exact le_trans (mul_le_max2 h1 h2)
      (max_le_max (mul_le_max_const h3 h4) (mul_le_max_const h3 h4))

/-! ### C1: `mul_div_down` -/

/-- C1: the claim fails on the code and the code contradicts its own
docstring.  At `x = 3, y = 1, d = 2` the product check passes and
`floor(3*1/2) = 1`, but `mul_div_down` computes `(z + d - 1) // d`, a ceiling,
and returns `2`. -/
theorem mul_div_down_rounds_up_cex :
    FixedPointMath.mul_div_down 3 1 2 = FPResult.ok 2 ∧ (3 * 1 : Int).fdiv 2 = 1 := by
  decide

/-! ### C5: `add` -/

theorem int_max_eq : FixedPointMath.INT_MAX = 9223372036854775807 := by
  norm_num [FixedPointMath.INT_MAX]

/-- C5 counterexample: `2^63 + 0` fits comfortably in 256 bits, yet `add`
signals its overflow error, because the code checks against `sys.maxsize`
(`2^63 - 1`), not the 256-bit width. -/
theorem add_overflow_below_width_cex :
    FixedPointMath.add (2 ^ 63) 0 =
      FPResult.err ⟨.overflowError, "FixedPointMath_AddOverflow"⟩ ∧
    (2 ^ 63 + 0 : Int) < 2 ^ 256 := by
  constructor
  · decide
  · norm_num

/-- C5 amended: for non-negative `a` and `b`, `add a b` returns `a + b` when
the sum is at most `sys.maxsize = 2^63 - 1` and signals
`OverflowError("FixedPointMath_AddOverflow")` exactly when the sum exceeds
that bound. -/
theorem add_checked_against_maxsize (a b : Int) (ha : 0 ≤ a) (hb : 0 ≤ b) :
    (a + b ≤ FixedPointMath.INT_MAX → FixedPointMath.add a b = FPResult.ok (a + b)) ∧
    (FixedPointMath.INT_MAX < a + b →
      FixedPointMath.add a b = FPResult.err ⟨.overflowError, "FixedPointMath_AddOverflow"⟩) := by
  rw [int_max_eq]
  unfold FixedPointMath.add
  rw [int_max_eq]
  constructor
  · intro h
    rw [if_neg (by omega)]
  · intro h
    rw [if_pos (by omega)]

/-- Witness for C5's amended theorem at `a = 1`, `b = 2`. -/
theorem add_checked_witness :
    (0 : Int) ≤ 1 ∧ FixedPointMath.add 1 2 = FPResult.ok (1 + 2) :=
  ⟨by norm_num,
    (add_checked_against_maxsize 1 2 (by norm_num) (by norm_num)).1
      (by rw [int_max_eq]; norm_num)⟩

/-! ### C8: `sub` -/

/-- C8 counterexample: `sub 5 10` does raise, but the raised error is an
`OverflowError` carrying `"FixedPointMath_SubOverflow"` — programmatically the
same exception class as `add`'s overflow error, not a distinct `Underflow`
kind. -/
theorem sub_error_kind_cex :
    FixedPointMath.sub 5 10 =
      FPResult.err ⟨.overflowError, "FixedPointMath_SubOverflow"⟩ ∧
    (FixedPointMath.sub 5 10).errKind = (FixedPointMath.add (2 ^ 63) 0).errKind := by
  constructor
  · decide
  · decide

/-- C8 amended: for non-negative `a` and `b`, `sub a b` signals
`OverflowError("FixedPointMath_SubOverflow")` (the code's subtraction
underflow signal, sharing `add`'s exception class) if and only if `b > a`,
and otherwise returns `a - b`. -/
theorem sub_checked_behavior (a b : Int) (ha : 0 ≤ a) (hb : 0 ≤ b) :
    (a < b → FixedPointMath.sub a b =
      FPResult.err ⟨.overflowError, "FixedPointMath_SubOverflow"⟩) ∧
    (b ≤ a → FixedPointMath.sub a b = FPResult.ok (a - b)) := by
  unfold FixedPointMath.sub
  constructor
  · intro h
    rw [if_pos h]
  · intro h
    rw [if_neg (not_lt.mpr h)]

/-- Witness for C8's amended theorem at `a = 5`, `b = 10`. -/
theorem sub_checked_witness :
    (0 : Int) ≤ 5 ∧ FixedPointMath.sub 5 10 =
      FPResult.err ⟨.overflowError, "FixedPointMath_SubOverflow"⟩ :=
  ⟨by norm_num, (sub_checked_behavior 5 10 (by norm_num) (by norm_num)).1 (by norm_num)⟩

/-! ### C6: `exp` bounds -/

/-- C6: `exp` returns `0` for every `x ≤ EXP_MIN` and raises
`ValueError("FixedPointMath_InvalidExponent")` for every `x ≥ EXP_MAX`; the
lower bound is defined zero-saturation, not an error. -/
theorem exp_bounds_behavior (x : Int) :
    (x ≤ FixedPointMath.EXP_MIN → FixedPointMath.exp x = FPResult.ok 0) ∧
    (FixedPointMath.EXP_MAX ≤ x →
      FixedPointMath.exp x =
        FPResult.err ⟨.valueError, "FixedPointMath_InvalidExponent"⟩) := by
  have hlt : FixedPointMath.EXP_MIN < FixedPointMath.EXP_MAX := by
    norm_num [FixedPointMath.EXP_MIN, FixedPointMath.EXP_MAX]
  constructor
  · intro h
    unfold FixedPointMath.exp
    rw [if_pos h]
  · intro h
    unfold FixedPointMath.exp
    rw [if_neg (by omega), if_pos h]

/-- Witness for C6 at the boundary points named by the claim:
`exp (EXP_MIN - 1) = 0` and `exp EXP_MAX` raises `InvalidExponent`. -/
theorem exp_bounds_witness :
    FixedPointMath.exp (FixedPointMath.EXP_MIN - 1) = FPResult.ok 0 ∧
    FixedPointMath.exp FixedPointMath.EXP_MAX =
      FPResult.err ⟨.valueError, "FixedPointMath_InvalidExponent"⟩ :=
  ⟨(exp_bounds_behavior _).1 (by omega), (exp_bounds_behavior _).2 le_rfl⟩

/-! ### C7: `ln` domain error -/

/-- C7 counterexample: `ln 0` raises a `ValueError` whose message is the
solver-level name `"FixedPointMath_NegativeOrZeroInput"`, and its
programmatic exception class is identical to the one `mul_div_down` raises
for `InvalidInput` — there is no distinct, programmatically distinguishable
`DomainError` kind. -/
theorem ln_error_kind_cex :
    FixedPointMath.ln 0 =
      FPResult.err ⟨.valueError, "FixedPointMath_NegativeOrZeroInput"⟩ ∧
    (FixedPointMath.ln 0).errKind = (FixedPointMath.mul_div_down 1 1 0).errKind := by
  constructor
  · decide
  · decide

/-- C7 amended: for every `x ≤ 0`, `ln` raises
`ValueError("FixedPointMath_NegativeOrZeroInput")` — distinguishable from the
other kernel errors only by its message text, its exception class being the
same `ValueError` used by `mul_div_down` and `exp` — and for every `x > 0`
no error carrying that message (nor the inner `NegativeInput` message) is
raised. -/
theorem ln_domain_behavior (x : Int) :
    (x ≤ 0 → FixedPointMath.ln x =
      FPResult.err ⟨.valueError, "FixedPointMath_NegativeOrZeroInput"⟩) ∧
    (0 < x → ∀ e, FixedPointMath.ln x = FPResult.err e →
      e.msg ≠ "FixedPointMath_NegativeOrZeroInput" ∧
      e.msg ≠ "FixedPointMath_NegativeInput") := by
  constructor
  · intro h
    unfold FixedPointMath.ln
    rw [if_pos h]
  · intro hx e
    unfold FixedPointMath.ln FixedPointMath.ln_inner
    rw [if_neg (not_le.mpr hx), if_neg (not_lt.mpr hx.le)]
    split_ifs with h1 h2
    · intro he
      cases he
      exact ⟨by decide, by decide⟩
    · intro he
      cases he
      exact ⟨by decide, by decide⟩
    · intro he
      cases he

/-- Witness for C7's amended theorem at `x = -1`. -/
theorem ln_domain_witness :
    FixedPointMath.ln (-1) =
      FPResult.err ⟨.valueError, "FixedPointMath_NegativeOrZeroInput"⟩ :=
  (ln_domain_behavior (-1)).1 (by norm_num)

/-! ### C2: user and market results are sign-opposite -/

/-- C2: for every `TradeResult` returned by `calc_out_given_in` or
`calc_in_given_out` (for any curve oracle, trade, reserve state and time),
`user_result.d_base = -market_result.d_base` holds for the full returned
result, and on the curve leg the bond deltas offset exactly:
`user_result.d_bonds = -market_result.d_bonds` for the curve sub-result,
the fee being retained by the pool via the with-fee bookkeeping. -/
theorem trade_results_sign_opposite (o : CurveOracle) (q : Quantity)
    (ms : MarketState) (t : StretchedTime) :
    ((HyperdrivePricingModel.calc_out_given_in o q ms t).1.user_result.d_base =
      -(HyperdrivePricingModel.calc_out_given_in o q ms t).1.market_result.d_base) ∧
    ((HyperdrivePricingModel.curve_result_out o q ms t).user_result.d_bonds =
      -(HyperdrivePricingModel.curve_result_out o q ms t).market_result.d_bonds) ∧
    ((HyperdrivePricingModel.calc_in_given_out o q ms t).1.user_result.d_base =
      -(HyperdrivePricingModel.calc_in_given_out o q ms t).1.market_result.d_base) ∧
    ((HyperdrivePricingModel.curve_result_in o q ms t).user_result.d_bonds =
      -(HyperdrivePricingModel.curve_result_in o q ms t).market_result.d_bonds) := by
  obtain ⟨amt, u⟩ := q
  cases u <;>
    simp [HyperdrivePricingModel.calc_out_given_in,
      HyperdrivePricingModel.calc_in_given_out,
      HyperdrivePricingModel.curve_result_out,
      HyperdrivePricingModel.curve_result_in,
      HyperdrivePricingModel.curve_quantity,
      YieldspacePricingModel.calc_out_given_in,
      YieldspacePricingModel.calc_in_given_out] <;>
    ring_nf <;> norm_num

/-! ### C3: breakdown fee reconciliation -/

/-- C3 counterexample: a concrete `calc_out_given_in` trade (half-matured,
10% redemption fee) has `with_fee - without_fee = -fee`, not `fee`: the fee
reduces the output of an out-given-in trade. -/
theorem breakdown_fee_sign_cex :
    ¬((HyperdrivePricingModel.calc_out_given_in constOracle ⟨100, TokenType.base⟩
        ⟨100000, 100000, 1, 1, 0, 1/10, 0⟩ ⟨365/2, 1, 365⟩).1.breakdown.with_fee -
      (HyperdrivePricingModel.calc_out_given_in constOracle ⟨100, TokenType.base⟩
        ⟨100000, 100000, 1, 1, 0, 1/10, 0⟩ ⟨365/2, 1, 365⟩).1.breakdown.without_fee =
      (HyperdrivePricingModel.calc_out_given_in constOracle ⟨100, TokenType.base⟩
        ⟨100000, 100000, 1, 1, 0, 1/10, 0⟩ ⟨365/2, 1, 365⟩).1.breakdown.fee) := by
  norm_num [HyperdrivePricingModel.calc_out_given_in,
    HyperdrivePricingModel.curve_result_out,
    HyperdrivePricingModel.curve_quantity,
    HyperdrivePricingModel.curve_time,
    HyperdrivePricingModel.adjusted_state_out,
    YieldspacePricingModel.calc_out_given_in,
    StretchedTime.normalized_time, constOracle]

/-- C3 amended: the breakdown reconciles with a direction-dependent sign:
`without_fee - with_fee = fee` for `calc_out_given_in` (the fee reduces the
output) and `with_fee - without_fee = fee` for `calc_in_given_out` (the fee
increases the required input). -/
theorem breakdown_fee_reconciles (o : CurveOracle) (q : Quantity)
    (ms : MarketState) (t : StretchedTime) :
    ((HyperdrivePricingModel.calc_out_given_in o q ms t).1.breakdown.without_fee -
      (HyperdrivePricingModel.calc_out_given_in o q ms t).1.breakdown.with_fee =
      (HyperdrivePricingModel.calc_out_given_in o q ms t).1.breakdown.fee) ∧
    ((HyperdrivePricingModel.calc_in_given_out o q ms t).1.breakdown.with_fee -
      (HyperdrivePricingModel.calc_in_given_out o q ms t).1.breakdown.without_fee =
      (HyperdrivePricingModel.calc_in_given_out o q ms t).1.breakdown.fee) := by
  obtain ⟨amt, u⟩ := q
  cases u <;>
    simp [HyperdrivePricingModel.calc_out_given_in,
      HyperdrivePricingModel.calc_in_given_out,
      HyperdrivePricingModel.curve_result_out,
      HyperdrivePricingModel.curve_result_in,
      HyperdrivePricingModel.curve_quantity,
      YieldspacePricingModel.calc_out_given_in,
      YieldspacePricingModel.calc_in_given_out] <;>
    constructor <;> first | ring | trivial

/-! ### C4: flat/curve split and the pinned full-term time -/

/-- C4: both engine entry points price a flat part of exactly
`amount * (1 - τ)` and hand the curve solver a quantity of exactly
`amount * τ`, against the adjusted working reserves, with a `StretchedTime`
whose `days` field is the full term `normalizing_constant` (not the original
days remaining). -/
theorem flat_curve_split (o : CurveOracle) (q : Quantity)
    (ms : MarketState) (t : StretchedTime) :
    ((HyperdrivePricingModel.calc_out_given_in o q ms t).1.breakdown.without_fee =
      q.amount * (1 - t.normalized_time) +
      (YieldspacePricingModel.calc_out_given_in o
        ⟨q.amount * t.normalized_time, q.unit⟩
        (HyperdrivePricingModel.adjusted_state_out q ms t)
        ⟨t.normalizing_constant, t.time_stretch, t.normalizing_constant⟩).breakdown.without_fee) ∧
    ((HyperdrivePricingModel.calc_in_given_out o q ms t).1.breakdown.without_fee =
      q.amount * (1 - t.normalized_time) +
      (YieldspacePricingModel.calc_in_given_out o
        ⟨q.amount * t.normalized_time, q.unit⟩
        (HyperdrivePricingModel.adjusted_state_in q ms t)
        ⟨t.normalizing_constant, t.time_stretch, t.normalizing_constant⟩).breakdown.without_fee) ∧
    (HyperdrivePricingModel.curve_time t).days = t.normalizing_constant := by
  refine ⟨?_, ?_, rfl⟩ <;>
  · obtain ⟨amt, u⟩ := q
    cases u <;>
      simp [HyperdrivePricingModel.calc_out_given_in,
        HyperdrivePricingModel.calc_in_given_out,
        HyperdrivePricingModel.curve_result_out,
        HyperdrivePricingModel.curve_result_in,
        HyperdrivePricingModel.curve_quantity,
        HyperdrivePricingModel.curve_time,
        YieldspacePricingModel.calc_out_given_in,
        YieldspacePricingModel.calc_in_given_out]

/-! ### C9: the caller's market state is never mutated -/

/-- C9: after either engine call the caller-visible `MarketState` is
field-for-field identical to its pre-call value — the matured-leg reserve
adjustment only ever touches the local working copy. -/
theorem market_state_unchanged (o : CurveOracle) (q : Quantity)
    (ms : MarketState) (t : StretchedTime) :
    ((HyperdrivePricingModel.calc_out_given_in o q ms t).2.share_reserves = ms.share_reserves ∧
     (HyperdrivePricingModel.calc_out_given_in o q ms t).2.bond_reserves = ms.bond_reserves ∧
     (HyperdrivePricingModel.calc_out_given_in o q ms t).2.share_price = ms.share_price ∧
     (HyperdrivePricingModel.calc_out_given_in o q ms t).2.init_share_price = ms.init_share_price ∧
     (HyperdrivePricingModel.calc_out_given_in o q ms t).2.curve_fee_percent = ms.curve_fee_percent ∧
     (HyperdrivePricingModel.calc_out_given_in o q ms t).2.redemption_fee_percent = ms.redemption_fee_percent ∧
     (HyperdrivePricingModel.calc_out_given_in o q ms t).2.governance_fee_percent = ms.governance_fee_percent) ∧
    ((HyperdrivePricingModel.calc_in_given_out o q ms t).2.share_reserves = ms.share_reserves ∧
     (HyperdrivePricingModel.calc_in_given_out o q ms t).2.bond_reserves = ms.bond_reserves ∧
     (HyperdrivePricingModel.calc_in_given_out o q ms t).2.share_price = ms.share_price ∧
     (HyperdrivePricingModel.calc_in_given_out o q ms t).2.init_share_price = ms.init_share_price ∧
     (HyperdrivePricingModel.calc_in_given_out o q ms t).2.curve_fee_percent = ms.curve_fee_percent ∧
     (HyperdrivePricingModel.calc_in_given_out o q ms t).2.redemption_fee_percent = ms.redemption_fee_percent ∧
     (HyperdrivePricingModel.calc_in_given_out o q ms t).2.governance_fee_percent = ms.governance_fee_percent) := by
  obtain ⟨amt, u⟩ := q
  cases u <;>
    simp [HyperdrivePricingModel.calc_out_given_in,
      HyperdrivePricingModel.calc_in_given_out]

/-! ### C10: totality and non-negativity of `exp` on the open range -/

/-- The reduced argument `a - round(a/ln2)*ln2` (all in the `2**96` basis)
lies in `[-ln2/2, ln2/2)`. -/
theorem reduce_bounds (a : ℤ) :
    -27458388733853736675570735564 ≤
      a - ((a * 2 ^ 96).fdiv 54916777467707473351141471128 + 2 ^ 95).fdiv (2 ^ 96) *
        54916777467707473351141471128 ∧
    a - ((a * 2 ^ 96).fdiv 54916777467707473351141471128 + 2 ^ 95).fdiv (2 ^ 96) *
        54916777467707473351141471128 ≤ 27458388733853736675570735563 := by
  have hL : (0 : ℤ) < 54916777467707473351141471128 := by norm_num
  have h96 : (0 : ℤ) < 2 ^ 96 := by positivity
  set T := (a * 2 ^ 96).fdiv 54916777467707473351141471128 with hT
  set K := (T + 2 ^ 95).fdiv (2 ^ 96) with hK
  have h1 : 2 ^ 96 * K ≤ T + 2 ^ 95 := by
    rw [hK]; exact fdiv_mul_le h96
  have h2 : T + 2 ^ 95 < 2 ^ 96 * K + 2 ^ 96 := by
    rw [hK]; exact lt_fdiv_mul_add h96
  have h3 : 54916777467707473351141471128 * T ≤ a * 2 ^ 96 := by
    rw [hT]; exact fdiv_mul_le hL
  have h4 : a * 2 ^ 96 < 54916777467707473351141471128 * T + 54916777467707473351141471128 := by
    rw [hT]; exact lt_fdiv_mul_add hL
  constructor
  · have h5 : 54916777467707473351141471128 * (2 ^ 96 * K - 2 ^ 95) ≤
        54916777467707473351141471128 * T :=
      mul_le_mul_of_nonneg_left (by linarith) hL.le
    have h6 : (-27458388733853736675570735564) * 2 ^ 96 ≤
        (a - K * 54916777467707473351141471128) * 2 ^ 96 := by nlinarith
    exact le_of_mul_le_mul_right h6 h96
  · have h5 : 54916777467707473351141471128 * (T + 1) ≤
        54916777467707473351141471128 * (2 ^ 96 * K + 2 ^ 95) :=
      mul_le_mul_of_nonneg_left (by linarith) hL.le
    have h6 : (a - K * 54916777467707473351141471128) * 2 ^ 96 <
        27458388733853736675570735564 * 2 ^ 96 := by nlinarith
    have h7 : a - K * 54916777467707473351141471128 < 27458388733853736675570735564 :=
      lt_of_mul_lt_mul_right h6 h96.le
    omega

/-- The reduced argument of `exp` lies in `[-ln2/2, ln2/2) * 2**96`,
unconditionally in `x`. -/
theorem expX2_bounds (x : ℤ) :
    -27458388733853736675570735564 ≤ FixedPointMath.expX2 x ∧
    FixedPointMath.expX2 x ≤ 27458388733853736675570735563 := by
  have h := reduce_bounds (FixedPointMath.expX1 x)
  simpa [FixedPointMath.expX2, FixedPointMath.expK, FixedPointMath.shr96,
    FixedPointMath.EXP_LN2] using h

/-- The range-reduction exponent `k` is monotone in `x`. -/
theorem expK_mono {x y : ℤ} (h : x ≤ y) :
    FixedPointMath.expK x ≤ FixedPointMath.expK y := by
  unfold FixedPointMath.expK FixedPointMath.shr96 FixedPointMath.expX1
  apply fdiv_le_fdiv_right (by positivity)
  have h1 : x * 2 ^ 78 ≤ y * 2 ^ 78 := mul_le_mul_of_nonneg_right h (by positivity)
  have h2 : (x * 2 ^ 78).fdiv (5 ^ 18) ≤ (y * 2 ^ 78).fdiv (5 ^ 18) :=
    fdiv_le_fdiv_right (by positivity) h1
  have h3 : (x * 2 ^ 78).fdiv (5 ^ 18) * 2 ^ 96 ≤ (y * 2 ^ 78).fdiv (5 ^ 18) * 2 ^ 96 :=
    mul_le_mul_of_nonneg_right h2 (by positivity)
  have h4 : ((x * 2 ^ 78).fdiv (5 ^ 18) * 2 ^ 96).fdiv FixedPointMath.EXP_LN2 ≤
      ((y * 2 ^ 78).fdiv (5 ^ 18) * 2 ^ 96).fdiv FixedPointMath.EXP_LN2 :=
    fdiv_le_fdiv_right (by norm_num [FixedPointMath.EXP_LN2]) h3
  linarith

/-- Below `EXP_MAX` the range-reduction exponent never exceeds `195`. -/
theorem expK_le_195 {x : ℤ} (h : x < FixedPointMath.EXP_MAX) :
    FixedPointMath.expK x ≤ 195 := by
  have h1 : x ≤ FixedPointMath.EXP_MAX - 1 := by omega
  have h2 : FixedPointMath.expK (FixedPointMath.EXP_MAX - 1) = 195 := by decide
  have h3 := expK_mono h1
  omega

theorem expP1_bounds {t : ℤ} (h1 : -27458388733853736675570735564 ≤ t)
    (h2 : t ≤ 27458388733853736675570735563) :
    2744543006872003558759874761428 ≤ FixedPointMath.expP1 t ∧
    FixedPointMath.expP1 t ≤ 2799459784339711032111016232555 := by
  unfold FixedPointMath.expP1
  omega

theorem expP2_bounds {t : ℤ} (h1 : -27458388733853736675570735564 ≤ t)
    (h2 : t ≤ 27458388733853736675570735563) :
    43365670101824907397301954645965 ≤ FixedPointMath.expP2 t ∧
    FixedPointMath.expP2 t ≤ 45306107758430930636367792394062 := by
  obtain ⟨g1, g2⟩ := expP1_bounds h1 h2
  have hm := mul_interval g1 g2 h1 h2
  unfold FixedPointMath.expP2 FixedPointMath.shr96
  constructor
  · have hlo : (-970218828303011619532918874067 : ℤ) * 2 ^ 96 ≤ FixedPointMath.expP1 t * t :=
      le_trans (by norm_num) hm.1
    have := le_fdiv_of_mul_le (by positivity) hlo
    omega
  · have hhi : FixedPointMath.expP1 t * t < (970218828303011619532918874030 + 1) * 2 ^ 96 :=
      lt_of_le_of_lt hm.2 (by norm_num)
    have := fdiv_le_of_lt_mul (by positivity) hhi
    omega

theorem expP3_bounds {t : ℤ} (h1 : -27458388733853736675570735564 ≤ t)
    (h2 : t ≤ 27458388733853736675570735563) :
    383186592160051113691262835836639 ≤ FixedPointMath.expP3 t ∧
    FixedPointMath.expP3 t ≤ 414590393014952577013921844842230 := by
  obtain ⟨g1, g2⟩ := expP2_bounds h1 h2
  have hm := mul_interval g1 g2 h1 h2
  unfold FixedPointMath.expP3 FixedPointMath.shr96
  constructor
  · have hlo : (-15701900427450731661329504503082 : ℤ) * 2 ^ 96 ≤ FixedPointMath.expP2 t * t :=
      le_trans (by norm_num) hm.1
    have := le_fdiv_of_mul_le (by positivity) hlo
    omega
  · have hhi : FixedPointMath.expP2 t * t < (15701900427450731661329504502509 + 1) * 2 ^ 96 :=
      lt_of_le_of_lt hm.2 (by norm_num)
    have := fdiv_le_of_lt_mul (by positivity) hhi
    omega

theorem expP4_bounds {t : ℤ} (h1 : -27458388733853736675570735564 ≤ t)
    (h2 : t ≤ 27458388733853736675570735563) :
    1850153738667847459614677375261380 ≤ FixedPointMath.expP4 t ∧
    FixedPointMath.expP4 t ≤ 2137525900673401482103779614319070 := by
  obtain ⟨g1, g2⟩ := expP3_bounds h1 h2
  have hm := mul_interval g1 g2 h1 h2
  unfold FixedPointMath.expP4 FixedPointMath.shr96
  constructor
  · have hlo : (-143686081002777011244551119531462 : ℤ) * 2 ^ 96 ≤ FixedPointMath.expP3 t * t :=
      le_trans (by norm_num) hm.1
    have := le_fdiv_of_mul_le (by positivity) hlo
    omega
  · have hhi : FixedPointMath.expP3 t * t < (143686081002777011244551119526228 + 1) * 2 ^ 96 :=
      lt_of_le_of_lt hm.2 (by norm_num)
    have := fdiv_le_of_lt_mul (by positivity) hhi
    omega

/-- The numerator of `exp`'s rational approximation is non-negative on the
reduced range. -/
theorem expP_nonneg {t : ℤ} (h1 : -27458388733853736675570735564 ≤ t)
    (h2 : t ≤ 27458388733853736675570735563) :
    0 ≤ FixedPointMath.expP t := by
  obtain ⟨g1, g2⟩ := expP4_bounds h1 h2
  have hm := mul_interval g1 g2 h1 h2
  unfold FixedPointMath.expP
  have hlo : (-58706304316349397778448561351832286253925111373678323534958020 : ℤ) ≤
      FixedPointMath.expP4 t * t := le_trans (by norm_num) hm.1
  nlinarith

theorem expZ1_bounds {t : ℤ} (h1 : -27458388733853736675570735564 ≤ t)
    (h2 : t ≤ 27458388733853736675570735563) :
    723071792058884286597609685172 ≤ FixedPointMath.expZ1 t ∧
    FixedPointMath.expZ1 t ≤ 777988569526591759948751156299 := by
  unfold FixedPointMath.expZ1
  omega

theorem expZ2_bounds {t : ℤ} (h1 : -27458388733853736675570735564 ≤ t)
    (h2 : t ≤ 27458388733853736675570735563) :
    32518825929564591694454326430787 ≤ FixedPointMath.expZ2 t ∧
    FixedPointMath.expZ2 t ≤ 33058086513039813758160677467362 := by
  obtain ⟨g1, g2⟩ := expZ1_bounds h1 h2
  have hm := mul_interval g1 g2 h1 h2
  unfold FixedPointMath.expZ2 FixedPointMath.shr96
  constructor
  · have hlo : (-269630291737611031853175518293 : ℤ) * 2 ^ 96 ≤ FixedPointMath.expZ1 t * t :=
      le_trans (by norm_num) hm.1
    have := le_fdiv_of_mul_le (by positivity) hlo
    omega
  · have hhi : FixedPointMath.expZ1 t * t < (269630291737611031853175518282 + 1) * 2 ^ 96 :=
      lt_of_le_of_lt hm.2 (by norm_num)
    have := fdiv_le_of_lt_mul (by positivity) hhi
    omega

theorem expW1_bounds {t : ℤ} (h1 : -27458388733853736675570735564 ≤ t)
    (h2 : t ≤ 27458388733853736675570735563) :
    -2245597348237335560713765161418 ≤ FixedPointMath.expW1 t ∧
    FixedPointMath.expW1 t ≤ -2190680570769628087362623690291 := by
  unfold FixedPointMath.expW1
  omega

theorem expW2_bounds {t : ℤ} (h1 : -27458388733853736675570735564 ≤ t)
    (h2 : t ≤ 27458388733853736675570735563) :
    -44035706563905009258706346157699 ≤ FixedPointMath.expW2 t ∧
    FixedPointMath.expW2 t ≤ -6210883063721659024630138355572 := by
  obtain ⟨g1, g2⟩ := expW1_bounds h1 h2
  obtain ⟨z1, z2⟩ := expZ2_bounds h1 h2
  have hm := mul_interval g1 g2 z1 z2
  unfold FixedPointMath.expW2 FixedPointMath.shr96
  constructor
  · have hlo : (-936979339866896989696039209065399 : ℤ) * 2 ^ 96 ≤
        FixedPointMath.expW1 t * FixedPointMath.expZ2 t := le_trans (by norm_num) hm.1
    have := le_fdiv_of_mul_le (by positivity) hlo
    omega
  · have hhi : FixedPointMath.expW1 t * FixedPointMath.expZ2 t <
        (-899154516366713639461963001263272 + 1) * 2 ^ 96 :=
      lt_of_le_of_lt hm.2 (by norm_num)
    have := fdiv_le_of_lt_mul (by positivity) hhi
    omega

theorem expQ1_bounds {t : ℤ} (h1 : -27458388733853736675570735564 ≤ t)
    (h2 : t ≤ 27458388733853736675570735563) :
    -89691690457385722291172814148952 ≤ FixedPointMath.expQ1 t ∧
    FixedPointMath.expQ1 t ≤ -51327606373727149993390255310250 := by
  obtain ⟨z1, z2⟩ := expZ2_bounds h1 h2
  obtain ⟨w1, w2⟩ := expW2_bounds h1 h2
  unfold FixedPointMath.expQ1
  omega

/-- The denominator of `exp`'s rational approximation is strictly positive on
the reduced range, so `divmod(p, q)` never divides by zero there. -/
theorem expQ_pos {t : ℤ} (h1 : -27458388733853736675570735564 ≤ t)
    (h2 : t ≤ 27458388733853736675570735563) :
    0 < FixedPointMath.expQ t := by
  obtain ⟨g1, g2⟩ := expQ1_bounds h1 h2
  obtain ⟨w1, w2⟩ := expW2_bounds h1 h2
  have hm := mul_interval g1 g2 w1 w2
  unfold FixedPointMath.expQ FixedPointMath.shr96
  have hlo : (4023692472617404532478655566280887 : ℤ) * 2 ^ 96 ≤
      FixedPointMath.expQ1 t * FixedPointMath.expW2 t := le_trans (by norm_num) hm.1
  have := le_fdiv_of_mul_le (by positivity) hlo
  omega

/-- C10: on the open range `(EXP_MIN, EXP_MAX)` the `exp` kernel is total:
the range-reduction exponent `k` never exceeds `195` (so the final right
shift count `195 - k` is non-negative), the rational-approximation
denominator `q` is nonzero on the reduced range, and `exp` returns a
non-negative integer without raising any error. -/
theorem exp_total_in_range (x : ℤ) (hmin : FixedPointMath.EXP_MIN < x)
    (hmax : x < FixedPointMath.EXP_MAX) :
    FixedPointMath.expK x ≤ 195 ∧
    FixedPointMath.expQ (FixedPointMath.expX2 x) ≠ 0 ∧
    ∃ v, FixedPointMath.exp x = FPResult.ok v ∧ 0 ≤ v := by
  have hk := expK_le_195 hmax
  obtain ⟨ht1, ht2⟩ := expX2_bounds x
  have hq := expQ_pos ht1 ht2
  have hp := expP_nonneg ht1 ht2
  refine ⟨hk, ne_of_gt hq,
    ((FixedPointMath.expP (FixedPointMath.expX2 x)).fdiv
        (FixedPointMath.expQ (FixedPointMath.expX2 x)) *
      3822833074963236453042738258902158003155416615667).fdiv
        (2 ^ (195 - FixedPointMath.expK x).toNat), ?_, ?_⟩
  · unfold FixedPointMath.exp
    rw [if_neg (not_le.mpr hmin), if_neg (not_le.mpr hmax), if_neg (ne_of_gt hq),
      if_neg (by omega : ¬(195 - FixedPointMath.expK x < 0))]
  · apply Int.fdiv_nonneg
    · exact mul_nonneg (Int.fdiv_nonneg hp hq.le) (by norm_num)
    · positivity

/-- Witness for C10 at `x = 0`. -/
theorem exp_total_witness :
    FixedPointMath.EXP_MIN < 0 ∧
    (FixedPointMath.expK 0 ≤ 195 ∧
     FixedPointMath.expQ (FixedPointMath.expX2 0) ≠ 0 ∧
     ∃ v, FixedPointMath.exp 0 = FPResult.ok v ∧ 0 ≤ v) :=
  ⟨by norm_num [FixedPointMath.EXP_MIN],
    exp_total_in_range 0 (by norm_num [FixedPointMath.EXP_MIN])
      (by norm_num [FixedPointMath.EXP_MAX])⟩
